import Mathlib

/-!
Shallow embedding of `social/backends/base.py` (class `BaseAuth`): the
authentication pipeline executor, the `authenticate` entry point, the
`setting` lookup helper and the `auth_allowed` e-mail/domain filter.

Python values that flow through the pipeline context are modelled by the
inductive `Val`; Python dicts by association lists with first-match lookup;
fallible Python code (raising) returns `Option`.
-/

set_option autoImplicit false

namespace SocialAuth

/-- Python values appearing in the pipeline context: `None`, booleans,
ints, strings, lists, dicts, user objects (with their `social_user` and
`is_new` attributes), backend objects (carrying their `name` attribute) and
other opaque collaborator objects (strategy, request, ...). -/
inductive Val : Type where
  | vnone : Val
  | vbool : Bool → Val
  | vint : Int → Val
  | vstr : String → Val
  | vlist : List Val → Val
  | vdict : List (String × Val) → Val
  | vuser : Nat → Val → Val → Val
  | vbackend : String → Val
  | vobj : String → Val

open Val

mutual

/-- Structural equality on values, modelling Python `==` as used by the
`in` membership tests of `auth_allowed`. -/
def beqVal : Val → Val → Bool
  | vnone, vnone => true
  | vbool a, vbool b => a == b
  | vint a, vint b => a == b
  | vstr a, vstr b => a == b
  | vlist a, vlist b => beqValList a b
  | vdict a, vdict b => beqValDict a b
  | vuser i s n, vuser j t m => i == j && beqVal s t && beqVal n m
  | vbackend a, vbackend b => a == b
  | vobj a, vobj b => a == b
  | _, _ => false

def beqValList : List Val → List Val → Bool
  | [], [] => true
  | a :: as, b :: bs => beqVal a b && beqValList as bs
  | _, _ => false

def beqValDict : List (String × Val) → List (String × Val) → Bool
  | [], [] => true
  | (k, v) :: as, (l, w) :: bs => k == l && beqVal v w && beqValDict as bs
  | _, _ => false

end

/-- A Python dict with string keys, as an association list (first binding
for a key is the visible one). -/
abbrev Dict : Type := List (String × Val)

/-- Python truthiness (`bool(v)`): `None`, `False`, `0`, `""`, `[]`, `{}`
are falsy; user/backend/opaque objects are truthy. -/
def truthy : Val → Bool
  | vnone => false
  | vbool b => b
  | vint n => n != 0
  | vstr s => s != ""
  | vlist l => !l.isEmpty
  | vdict d => !d.isEmpty
  | vuser _ _ _ => true
  | vbackend _ => true
  | vobj _ => true

/-- `isinstance(v, dict)`. -/
def isDict : Val → Bool
  | vdict _ => true
  | _ => false

/-- `d[key]` / `key in d`: first binding wins. -/
def dlookup : Dict → String → Option Val
  | [], _ => Option.none
  | (k, v) :: rest, key => if k = key then some v else dlookup rest key

/-- `d.get(key, dflt)`. -/
def dgetD (d : Dict) (key : String) (dflt : Val) : Val :=
  (dlookup d key).getD dflt

/-- `d[key] = v`: replace the first binding of `key` in place, else append. -/
def dset : Dict → String → Val → Dict
  | [], key, v => [(key, v)]
  | (k, w) :: rest, key, v =>
    if k = key then (key, v) :: rest else (k, w) :: dset rest key v

/-- `d.setdefault(key, v)`: insert `key ↦ v` only when `key` is absent. -/
def dsetdefault (d : Dict) (key : String) (v : Val) : Dict :=
  match dlookup d key with
  | some _ => d
  | Option.none => d ++ [(key, v)]

/-- `d.pop(key, None)`: the popped value (if any) and the remaining dict. -/
def dpop : Dict → String → Option Val × Dict
  | [], _ => (Option.none, [])
  | (k, v) :: rest, key =>
    if k = key then (some v, rest)
    else
      let r := dpop rest key
      (r.1, (k, v) :: r.2)

/-- `d.update(d2)`: set every binding of `d2` into `d` in order. -/
def dupdate (d : Dict) : Dict → Dict
  | [] => d
  | (k, v) :: rest => dupdate (dset d k v) rest

/-- The external strategy collaborator: its settings store (`None` is the
"not found" answer to `strategy.setting(name, sentinel)`), its request data,
the configured authentication pipeline (`strategy.get_pipeline()`) and its
`request` attribute. -/
structure Strategy where
  settings : String → Option Val
  requestData : Dict
  pipelineNames : List String
  request : Val

/-- The mutable attributes of a `BaseAuth` instance: `name`, `strategy`,
`redirect_uri` and `data` (`strategy` and `redirect_uri` are `vnone` when
unset, matching the Python `None` default). -/
structure SelfState where
  name : String
  strategy : Val
  redirect_uri : Val
  data : Dict

/-- `module_member`: resolves a step address to the step function, which is
invoked as `func(*args, **out)`. -/
abbrev Resolver : Type := String → List Val → Dict → Val

/-- Result of one `run_pipeline` call: the returned value, whether
`strategy.clean_partial_pipeline()` was invoked, and how many steps ran. -/
structure RunResult where
  value : Val
  cleaned : Bool
  stepsRun : Nat

/-- Result of an `authenticate` / `pipeline` call (same observations). -/
structure AuthResult where
  value : Val
  cleaned : Bool
  stepsRun : Nat

/-- Uppercase a name character by character (`str.upper()` for ASCII
provider names). -/
def upperName (s : String) : String :=
  String.mk (s.data.map Char.toUpper)

/-- Modelled from the spec: `setting_name` lives in `social.utils`, which is
not part of the sources; the spec says the provider-namespaced key for
backend name `foo` and setting `X` is `FOO_X` (`<PROVIDER_NAME>_<NAME>`). -/
def setting_name (backendName settingKey : String) : String :=
  upperName backendName ++ "_" ++ settingKey

/-- The lookup loop of `BaseAuth.setting`: first stored value among the
candidate keys, where the strategy answers `Option.none` exactly when its
"not found" sentinel would be returned. -/
def settingLookup (strat : Strategy) : List String → Option Val
  | [] => Option.none
  | n :: rest =>
    match strat.settings n with
    | some v => some v
    | Option.none => settingLookup strat rest

namespace BaseAuth

/-- `BaseAuth.setting(name, default)`: try `<NAME>_<name>` then bare
`name` against the strategy, falling back to `default` only when both
lookups hit the sentinel. -/
def setting (strat : Strategy) (self : SelfState) (name : String)
    (default : Val) : Val :=
  (settingLookup strat [setting_name self.name name, name]).getD default

end BaseAuth

/-- Split a character list at the first occurrence of `sep`. -/
def splitOnceChar (sep : Char) : List Char → Option (List Char × List Char)
  | [] => Option.none
  | c :: rest =>
    if c = sep then some ([], rest)
    else (splitOnceChar sep rest).map (fun p => (c :: p.1, p.2))

/-- Python `s.split(sep, 1)` for a one-character separator: at most one
split, on the first occurrence; a separator-free string stays whole. -/
def pysplit1 (s : String) (sep : Char) : List String :=
  match splitOnceChar sep s.data with
  | Option.none => [s]
  | some (l, r) => [String.mk l, String.mk r]

/-- Python `x in container` (defined for list containers, where it tests
`==` against each element; anything else raises `TypeError`, i.e. `none`). -/
def pyIn (x : Val) : Val → Option Bool
  | Val.vlist l => some (l.any (beqVal x ·))
  | _ => Option.none

/-- `getattr(v, 'name')` for backend objects; any other value raises
`AttributeError`, i.e. `none`. -/
def pyName : Val → Option String
  | Val.vbackend n => some n
  | _ => Option.none

/-- A Python int for use as a sequence index / start offset: booleans count
as ints; anything else raises `TypeError`. -/
def toPyIndex : Val → Option Int
  | Val.vint i => some i
  | Val.vbool b => some (if b then 1 else 0)
  | _ => Option.none

/-- Python `l[i:]`, including negative starts. -/
def pySliceFrom {α : Type} (l : List α) (i : Int) : List α :=
  if 0 ≤ i then l.drop i.toNat
  else l.drop (l.length - (-i).toNat)

namespace BaseAuth

/-- `BaseAuth.auth_allowed(response, details)`. `none` models a raised
exception (`IndexError` when the e-mail has no `@`, `AttributeError` on a
non-string e-mail, `TypeError` on a non-list whitelist). -/
def auth_allowed (strat : Strategy) (self : SelfState)
    (response details : Dict) : Option Val :=
  let emails := setting strat self "WHITELISTED_EMAILS" (Val.vlist [])
  let domains := setting strat self "WHITELISTED_DOMAINS" (Val.vlist [])
  let email := dgetD details "email" Val.vnone
  if truthy email && (truthy emails || truthy domains) then
    match email with
    | Val.vstr s =>
      -- domain = email.split('@', 1)[1]
      match (pysplit1 s '@')[1]? with
      | some domain =>
        -- allowed = email in emails or domain in domains
        match pyIn email emails with
        | some true => some (Val.vbool true)
        | some false =>
          match pyIn (Val.vstr domain) domains with
          | some b => some (Val.vbool b)
          | Option.none => Option.none
        | Option.none => Option.none
      | Option.none => Option.none
    | _ => Option.none
  else some (Val.vbool true)

/-- The `for idx, name in enumerate(pipeline)` loop of `run_pipeline`,
carrying the absolute index `pipeline_index + idx`.  Returns either the
short-circuiting value (`Sum.inl`) or the final context (`Sum.inr`), paired
with the number of steps that were invoked. -/
def runLoop (resolve : Resolver) (args : List Val) :
    List String → Int → Dict → (Val ⊕ Dict) × Nat
  | [], _, out => (Sum.inr out, 0)
  | n :: rest, idx, out =>
    -- out['pipeline_index'] = pipeline_index + idx
    let out := dset out "pipeline_index" (Val.vint idx)
    -- result = func(*args, **out) or {}
    let result := resolve n args out
    let result := if truthy result then result else Val.vdict []
    match result with
    | Val.vdict d =>
      -- out.update(result)
      let r := runLoop resolve args rest (idx + 1) (dupdate out d)
      (r.1, r.2 + 1)
    | v => (Sum.inl v, 1)

/-- The three preamble lines of `run_pipeline`:
`out.setdefault('strategy', self.strategy)`,
`out.setdefault('backend', out.pop(self.name, None) or self)`,
`out.setdefault('request', self.strategy.request)` applied to
`out = kwargs.copy()`. -/
def applyDefaults (strat : Strategy) (self : SelfState) (kwargs : Dict) :
    Dict :=
  let out := dsetdefault kwargs "strategy" self.strategy
  let popped := (dpop out self.name).1
  let out := (dpop out self.name).2
  let out := dsetdefault out "backend"
    (if truthy (popped.getD Val.vnone) then popped.getD Val.vnone
     else Val.vbackend self.name)
  dsetdefault out "request" strat.request

/-- `BaseAuth.run_pipeline(pipeline, pipeline_index, *args, **kwargs)`:
defaults, the step loop, and `strategy.clean_partial_pipeline()` exactly on
the fall-through path. -/
def run_pipeline (resolve : Resolver) (strat : Strategy) (self : SelfState)
    (pipeline : List String) (pipeline_index : Int) (args : List Val)
    (kwargs : Dict) : RunResult :=
  let out := applyDefaults strat self kwargs
  match runLoop resolve args pipeline pipeline_index out with
  | (Sum.inl v, c) => ⟨v, false, c⟩
  | (Sum.inr d, c) => ⟨Val.vdict d, true, c⟩

/-- `BaseAuth.pipeline(pipeline, pipeline_index, *args, **kwargs)`: run the
executor, then unwrap: a non-dict result is returned as is; otherwise
`user = out.get('user')` is annotated (when truthy) with `out.get('social')`
and `out.get('is_new')` and returned.  `none` models the `AttributeError`
raised when attributes are set on a truthy non-user value. -/
def pipeline (resolve : Resolver) (strat : Strategy) (self : SelfState)
    (pipelineNames : List String) (pipeline_index : Int) (args : List Val)
    (kwargs : Dict) : Option AuthResult :=
  let r := run_pipeline resolve strat self pipelineNames pipeline_index args
    kwargs
  match r.value with
  | Val.vdict out =>
    let user := dgetD out "user" Val.vnone
    if truthy user then
      match user with
      | Val.vuser uid _ _ =>
        some ⟨Val.vuser uid (dgetD out "social" Val.vnone)
          (dgetD out "is_new" Val.vnone), r.cleaned, r.stepsRun⟩
      | _ => Option.none
    else some ⟨user, r.cleaned, r.stepsRun⟩
  | v => some ⟨v, r.cleaned, r.stepsRun⟩

/-- The Python call `self.pipeline(pipeline, *args, **kwargs)`: binds the
`pipeline_index=0` parameter from the first positional argument, else from
a `pipeline_index` keyword argument (removed from `kwargs`), else `0`.
`none` models the `TypeError` raised on a duplicate or non-int index. -/
def pipelineBind (resolve : Resolver) (strat : Strategy) (self : SelfState)
    (pipelineNames : List String) (args : List Val) (kwargs : Dict) :
    Option AuthResult :=
  match args with
  | a :: rest =>
    if (dlookup kwargs "pipeline_index").isSome then Option.none
    else
      match toPyIndex a with
      | some i => pipeline resolve strat self pipelineNames i rest kwargs
      | Option.none => Option.none
  | [] =>
    match dlookup kwargs "pipeline_index" with
    | some pv =>
      match toPyIndex pv with
      | some i =>
        pipeline resolve strat self pipelineNames i []
          (dpop kwargs "pipeline_index").2
      | Option.none => Option.none
    | Option.none => pipeline resolve strat self pipelineNames 0 [] kwargs

/-- The attribute refreshes of `authenticate`:
`self.strategy = self.strategy or kwargs.get('strategy')`,
`self.redirect_uri = self.redirect_uri or kwargs.get('redirect_uri')`,
`self.data = self.strategy.request_data()`. -/
def effSelf (strat : Strategy) (self : SelfState) (kwargs : Dict) :
    SelfState :=
  { self with
    strategy := if truthy self.strategy then self.strategy
      else dgetD kwargs "strategy" Val.vnone
    redirect_uri := if truthy self.redirect_uri then self.redirect_uri
      else dgetD kwargs "redirect_uri" Val.vnone
    data := strat.requestData }

/-- `BaseAuth.authenticate(*args, **kwargs)`: the backend/strategy/response
validation (`None`, i.e. `some ⟨vnone, false, 0⟩`, on failure), attribute
refreshes, `kwargs.setdefault('is_new', False)`, the optional
`pipeline = pipeline[kwargs['pipeline_index']:]` slice, and the delegation
`self.pipeline(pipeline, *args, **kwargs)`.  The outer `none` models a
raised exception. -/
def authenticate (resolve : Resolver) (strat : Strategy) (self : SelfState)
    (args : List Val) (kwargs : Dict) : Option AuthResult :=
  match dlookup kwargs "backend" with
  | Option.none => some ⟨Val.vnone, false, 0⟩
  | some b =>
    match pyName b with
    | Option.none => Option.none
    | some n =>
      if n ≠ self.name then some ⟨Val.vnone, false, 0⟩
      else if (dlookup kwargs "strategy").isNone then
        some ⟨Val.vnone, false, 0⟩
      else if (dlookup kwargs "response").isNone then
        some ⟨Val.vnone, false, 0⟩
      else
        let self := effSelf strat self kwargs
        let names := strat.pipelineNames
        let kwargs := dsetdefault kwargs "is_new" (Val.vbool false)
        match dlookup kwargs "pipeline_index" with
        | some pv =>
          match toPyIndex pv with
          | some i =>
            pipelineBind resolve strat self (pySliceFrom names i) args
              kwargs
          | Option.none => Option.none
        | Option.none => pipelineBind resolve strat self names args kwargs

end BaseAuth

/-! Concrete strategies, backend states and step resolvers used to
instantiate the theorems below on closed inputs. -/

/-- A strategy with no stored settings and the given configured pipeline. -/
def stratWith (names : List String) : Strategy :=
  ⟨fun _ => Option.none, [], names, Val.vobj "request"⟩

/-- A strategy with no settings and no configured pipeline. -/
def demoStrat : Strategy := stratWith []

/-- A strategy whose `request` attribute is the string `"AMBIENT"`. -/
def probeStrat : Strategy :=
  ⟨fun _ => Option.none, [], [], Val.vstr "AMBIENT"⟩

/-- Settings store of a backend named `foo`: a (falsy) empty string under
the provider-namespaced `FOO_X` and a (falsy) `0` under the bare `Y`. -/
def c3Strat : Strategy :=
  ⟨fun k =>
    if k = "FOO_X" then some (Val.vstr "")
    else if k = "Y" then some (Val.vint 0)
    else Option.none, [], [], Val.vobj "request"⟩

/-- Settings store holding only the e-mail allow-list `["a@x.com"]` for a
backend named `foo`. -/
def emailListStrat : Strategy :=
  ⟨fun k =>
    if k = "FOO_WHITELISTED_EMAILS" then
      some (Val.vlist [Val.vstr "a@x.com"])
    else Option.none, [], [], Val.vobj "request"⟩

/-- Settings store holding only the domain allow-list `["x.com"]` for a
backend named `foo`. -/
def domainListStrat : Strategy :=
  ⟨fun k =>
    if k = "FOO_WHITELISTED_DOMAINS" then
      some (Val.vlist [Val.vstr "x.com"])
    else Option.none, [], [], Val.vobj "request"⟩

/-- A backend instance named `foo` with no strategy attached yet. -/
def fooSelf : SelfState := ⟨"foo", Val.vnone, Val.vnone, []⟩

/-- A backend instance named `x`. -/
def xSelf : SelfState := ⟨"x", Val.vnone, Val.vnone, []⟩

/-- A backend instance whose provider name is `request`, colliding with the
`request` context key. -/
def reqSelf : SelfState := ⟨"request", Val.vnone, Val.vnone, []⟩

/-- A backend instance whose provider name is `k`, colliding with a key
contributed by the `addk` step. -/
def kSelf : SelfState := ⟨"k", Val.vnone, Val.vnone, []⟩

/-- A step resolver with a small library of step behaviours: `empty`
returns `None`; `one` contributes `{'k1': 1}`; `addk` contributes
`{'k': 1}`; `halt` returns the string `"redirect"`; `probe` returns the
`request` entry of the context it received; `mkuser` contributes a user, a
social record and an `is_new` flag. -/
def demoResolve : Resolver := fun n _ ctx =>
  if n = "empty" then Val.vnone
  else if n = "one" then Val.vdict [("k1", Val.vint 1)]
  else if n = "addk" then Val.vdict [("k", Val.vint 1)]
  else if n = "halt" then Val.vstr "redirect"
  else if n = "probe" then dgetD ctx "request" Val.vnone
  else if n = "mkuser" then
    Val.vdict [("user", Val.vuser 7 Val.vnone Val.vnone),
      ("social", Val.vobj "social"), ("is_new", Val.vbool true)]
  else Val.vnone

/-- View a pipeline result value as the dict it carries (`[]` when it is
not a mapping); used to inspect final contexts of concrete runs. -/
def asDictVal : Val → Dict
  | Val.vdict d => d
  | _ => []

/-- The context produced by running the one-step pipeline `["addk"]` for
the backend named `k` on empty keyword arguments (checked by `rfl` in
`c8_counterexample`): the seed handed to the resumed run. -/
def c8Seed : Dict :=
  [("strategy", Val.vnone), ("backend", Val.vbackend "k"),
    ("request", Val.vobj "request"), ("pipeline_index", Val.vint 0),
    ("k", Val.vint 1)]

/-- The context produced by running the one-step pipeline `["one"]` for the
backend named `x` on empty keyword arguments. -/
def c8WitSeed : Dict :=
  [("strategy", Val.vnone), ("backend", Val.vbackend "x"),
    ("request", Val.vobj "request"), ("pipeline_index", Val.vint 0),
    ("k1", Val.vint 1)]

/-- Keyword arguments that pass all of `authenticate`'s validation checks
for the backend named `x`. -/
def c1Kwargs : Dict :=
  [("backend", Val.vbackend "x"), ("strategy", Val.vobj "strategy"),
    ("response", Val.vdict [])]

/-- The final context of the executor run performed by
`authenticate(**c1Kwargs)` with an empty configured pipeline (checked by
`rfl` in `c1_counterexample`): a mapping with no `user` entry. -/
def c1FinalCtx : Dict :=
  [("backend", Val.vbackend "x"), ("strategy", Val.vobj "strategy"),
    ("response", Val.vdict []), ("is_new", Val.vbool false),
    ("request", Val.vobj "request")]

/-- The pipeline executor run that a validated `authenticate(**kwargs)`
call with no positional arguments and no `pipeline_index` keyword
performs: refreshed attributes (`effSelf`), the full configured pipeline,
`is_new` defaulted to `False`. -/
def authRun (resolve : Resolver) (strat : Strategy) (self : SelfState)
    (kwargs : Dict) : RunResult :=
  BaseAuth.run_pipeline resolve strat (BaseAuth.effSelf strat self kwargs)
    strat.pipelineNames 0 [] (dsetdefault kwargs "is_new" (Val.vbool false))

/-! Association-list (Python dict) lemmas. -/

theorem dlookup_dset (d : Dict) (key : String) (v : Val) (q : String) :
    dlookup (dset d key v) q = if key = q then some v else dlookup d q := by
  induction d with
  | nil =>
    by_cases h : key = q <;> simp [dset, dlookup, h]
  | cons hd tl ih =>
    obtain ⟨k, w⟩ := hd
    by_cases hk : k = key
    · subst hk
      by_cases h : k = q <;> simp [dset, dlookup, h]
    · have hk2 : ¬key = k := fun hh => hk hh.symm
      by_cases h : k = q
      · subst h
        simp [dset, dlookup, hk, hk2]
      · simp [dset, dlookup, hk, h, ih]

theorem dset_dset (d : Dict) (key : String) (v w : Val) :
    dset (dset d key v) key w = dset d key w := by
  induction d with
  | nil => simp [dset]
  | cons hd tl ih =>
    obtain ⟨k, u⟩ := hd
    by_cases hk : k = key
    · simp [dset, hk]
    · simp [dset, hk, ih]

theorem dpop_of_not_mem (d : Dict) (key : String)
    (h : dlookup d key = Option.none) : dpop d key = (Option.none, d) := by
  induction d with
  | nil => simp [dpop]
  | cons hd tl ih =>
    obtain ⟨k, w⟩ := hd
    by_cases hk : k = key
    · simp [dlookup, hk] at h
    · simp [dlookup, hk] at h
      simp [dpop, hk, ih h]

theorem dpop_append_last (d : Dict) (key : String) (v : Val)
    (h : dlookup d key = Option.none) :
    dpop (d ++ [(key, v)]) key = (some v, d) := by
  induction d with
  | nil => simp [dpop]
  | cons hd tl ih =>
    obtain ⟨k, w⟩ := hd
    by_cases hk : k = key
    · simp [dlookup, hk] at h
    · simp [dlookup, hk] at h
      simp [dpop, hk, ih h]

theorem dlookup_append (d1 d2 : Dict) (q : String) :
    dlookup (d1 ++ d2) q =
      match dlookup d1 q with
      | some v => some v
      | Option.none => dlookup d2 q := by
  induction d1 with
  | nil => simp [dlookup]
  | cons hd tl ih =>
    obtain ⟨k, w⟩ := hd
    by_cases hk : k = q <;> simp [dlookup, hk, ih]

theorem dsetdefault_of_mem (d : Dict) (key : String) (v : Val)
    (h : (dlookup d key).isSome) : dsetdefault d key v = d := by
  unfold dsetdefault
  cases hl : dlookup d key with
  | none => rw [hl] at h; simp at h
  | some w => simp

theorem dlookup_dsetdefault_self (d : Dict) (key : String) (v : Val) :
    dlookup (dsetdefault d key v) key = some ((dlookup d key).getD v) := by
  unfold dsetdefault
  cases hl : dlookup d key with
  | none => simp [dlookup_append, hl, dlookup]
  | some w => simp [hl]

theorem dlookup_dsetdefault_ne (d : Dict) (key : String) (v : Val)
    (q : String) (h : key ≠ q) :
    dlookup (dsetdefault d key v) q = dlookup d q := by
  unfold dsetdefault
  cases hl : dlookup d key with
  | none =>
    rw [dlookup_append]
    cases hq : dlookup d q with
    | none => simp [dlookup, h]
    | some w => simp
  | some w => rfl

theorem dlookup_dsetdefault_isSome (d : Dict) (key : String) (v : Val)
    (q : String) (h : (dlookup d q).isSome) :
    (dlookup (dsetdefault d key v) q).isSome := by
  by_cases hk : key = q
  · subst hk; simp [dlookup_dsetdefault_self]
  · rw [dlookup_dsetdefault_ne d key v q hk]; exact h

theorem dlookup_dpop_ne (d : Dict) (key q : String) (h : key ≠ q) :
    dlookup (dpop d key).2 q = dlookup d q := by
  induction d with
  | nil => simp [dpop]
  | cons hd tl ih =>
    obtain ⟨k, w⟩ := hd
    by_cases hk : k = key
    · subst hk
      have hq : ¬k = q := h
      simp [dpop, dlookup, hq]
    · by_cases hq : k = q
      · subst hq
        simp [dpop, dlookup, hk, ih]
      · simp [dpop, dlookup, hk, hq, ih]

theorem dlookup_dset_isSome (d : Dict) (key : String) (v : Val)
    (q : String) (h : (dlookup d q).isSome) :
    (dlookup (dset d key v) q).isSome := by
  rw [dlookup_dset]
  by_cases hk : key = q <;> simp [hk, h]

theorem dlookup_dupdate_isSome (d2 d : Dict) (q : String)
    (h : (dlookup d q).isSome) : (dlookup (dupdate d d2) q).isSome := by
  induction d2 generalizing d with
  | nil => simpa [dupdate] using h
  | cons hd tl ih =>
    obtain ⟨k, w⟩ := hd
    exact ih (dset d k w) (dlookup_dset_isSome d k w q h)

/-! Lemmas about the step loop of `run_pipeline`. -/

theorem isDict_false (v : Val) (h : ∀ d, v ≠ Val.vdict d) :
    isDict v = false := by
  cases v <;> first | rfl | (exfalso; exact h _ rfl)

theorem runLoop_inl (resolve : Resolver) (args : List Val) (l : List String)
    (idx : Int) (out : Dict) (v : Val) (c : Nat)
    (h : BaseAuth.runLoop resolve args l idx out = (Sum.inl v, c)) :
    isDict v = false ∧ truthy v = true := by
  induction l generalizing idx out c with
  | nil => simp [BaseAuth.runLoop] at h
  | cons n rest ih =>
    simp only [BaseAuth.runLoop] at h
    split at h
    next d =>
      rw [Prod.mk.injEq] at h
      exact ih (idx + 1) _ _ (by rw [← h.1])
    next hnd =>
      rw [Prod.mk.injEq] at h
      have hv := Sum.inl.inj h.1
      by_cases ht :
          truthy (resolve n args
            (dset out "pipeline_index" (Val.vint idx))) = true
      · rw [if_pos ht] at hv
        subst hv
        refine ⟨isDict_false _ (fun d hd => hnd d ?_), ht⟩
        rw [if_pos ht]
        exact hd
      · exact absurd (if_neg ht) (hnd [])

theorem runLoop_inr_count (resolve : Resolver) (args : List Val)
    (l : List String) (idx : Int) (out : Dict) (d : Dict) (c : Nat)
    (h : BaseAuth.runLoop resolve args l idx out = (Sum.inr d, c)) :
    c = l.length := by
  induction l generalizing idx out d c with
  | nil =>
    simp only [BaseAuth.runLoop, Prod.mk.injEq] at h
    simpa using h.2.symm
  | cons n rest ih =>
    simp only [BaseAuth.runLoop] at h
    split at h
    next =>
      rw [Prod.mk.injEq] at h
      have hc := ih (idx + 1) _ d _ (by rw [← h.1])
      have h2 := h.2
      simp only [List.length_cons]
      omega
    next hnd =>
      rw [Prod.mk.injEq] at h
      exact absurd h.1 (by simp)

theorem runLoop_inr_isSome (resolve : Resolver) (args : List Val)
    (l : List String) (idx : Int) (out : Dict) (d : Dict) (c : Nat)
    (q : String) (hq : (dlookup out q).isSome)
    (h : BaseAuth.runLoop resolve args l idx out = (Sum.inr d, c)) :
    (dlookup d q).isSome := by
  induction l generalizing idx out d c with
  | nil =>
    simp only [BaseAuth.runLoop, Prod.mk.injEq] at h
    obtain ⟨h1, -⟩ := h
    rw [← Sum.inr.inj h1]
    exact hq
  | cons n rest ih =>
    simp only [BaseAuth.runLoop] at h
    split at h
    next =>
      rw [Prod.mk.injEq] at h
      exact ih (idx + 1) _ d _
        (dlookup_dupdate_isSome _ _ _ (dlookup_dset_isSome _ _ _ _ hq))
        (by rw [← h.1])
    next hnd =>
      rw [Prod.mk.injEq] at h
      exact absurd h.1 (by simp)

theorem runLoop_append (resolve : Resolver) (args : List Val)
    (l1 l2 : List String) (idx : Int) (out : Dict) :
    BaseAuth.runLoop resolve args (l1 ++ l2) idx out =
      match BaseAuth.runLoop resolve args l1 idx out with
      | (Sum.inl v, c) => (Sum.inl v, c)
      | (Sum.inr d, c) =>
        ((BaseAuth.runLoop resolve args l2 (idx + l1.length) d).1,
         (BaseAuth.runLoop resolve args l2 (idx + l1.length) d).2 + c) := by
  induction l1 generalizing idx out with
  | nil =>
    simp [BaseAuth.runLoop]
  | cons n rest ih =>
    simp only [List.cons_append, BaseAuth.runLoop]
    split
    next heq =>
      rename_i xv dl
      simp only [List.append_eq]
      rcases hs : BaseAuth.runLoop resolve args rest (idx + 1)
        (dupdate (dset out "pipeline_index" (Val.vint idx)) dl)
        with ⟨s1, s2⟩
      cases s1 with
      | inl v =>
        rw [ih, hs]
      | inr dd =>
        rw [ih, hs]
        have hcast : idx + 1 + (rest.length : Int) =
            idx + ((n :: rest : List String).length : Int) := by
          simp only [List.length_cons]
          push_cast
          ring
        simp only [hcast, List.length_cons]
        rw [Nat.add_assoc]
    next hnd =>
      rfl

theorem runLoop_all_falsy (resolve : Resolver) (args : List Val)
    (l : List String) (idx : Int) (out : Dict) (hl : l ≠ [])
    (hf : ∀ n ∈ l, ∀ ctx, truthy (resolve n args ctx) = false) :
    BaseAuth.runLoop resolve args l idx out =
      (Sum.inr (dset out "pipeline_index"
        (Val.vint (idx + l.length - 1))), l.length) := by
  induction l generalizing idx out with
  | nil => exact absurd rfl hl
  | cons n rest ih =>
    have hn := hf n (List.mem_cons_self n rest)
      (dset out "pipeline_index" (Val.vint idx))
    simp only [BaseAuth.runLoop]
    rw [if_neg (by simp [hn])]
    dsimp only [dupdate]
    rcases hrest : rest with - | ⟨m, more⟩
    · simp [BaseAuth.runLoop, dupdate]
    · rw [← hrest]
      have hne : rest ≠ [] := by rw [hrest]; simp
      rw [ih (idx + 1) (dset out "pipeline_index" (Val.vint idx)) hne
        (fun n hn ctx => hf n (List.mem_cons_of_mem _ hn) ctx)]
      rw [dset_dset]
      have hcast : idx + 1 + (rest.length : Int) - 1 =
          idx + ((n :: rest : List String).length : Int) - 1 := by
        simp only [List.length_cons]
        push_cast
        ring
      simp [hcast]

/-! Lemmas about the `run_pipeline` preamble (`applyDefaults`). -/

theorem applyDefaults_backend_isSome (strat : Strategy) (self : SelfState)
    (kwargs : Dict) :
    (dlookup (BaseAuth.applyDefaults strat self kwargs) "backend").isSome := by
  simp only [BaseAuth.applyDefaults]
  apply dlookup_dsetdefault_isSome
  simp [dlookup_dsetdefault_self]

theorem applyDefaults_request_isSome (strat : Strategy) (self : SelfState)
    (kwargs : Dict) :
    (dlookup (BaseAuth.applyDefaults strat self kwargs) "request").isSome := by
  simp only [BaseAuth.applyDefaults]
  simp [dlookup_dsetdefault_self]

theorem applyDefaults_strategy_isSome (strat : Strategy) (self : SelfState)
    (kwargs : Dict) (h : self.name ≠ "strategy") :
    (dlookup (BaseAuth.applyDefaults strat self kwargs) "strategy").isSome := by
  simp only [BaseAuth.applyDefaults]
  apply dlookup_dsetdefault_isSome
  apply dlookup_dsetdefault_isSome
  rw [dlookup_dpop_ne _ _ _ h]
  simp [dlookup_dsetdefault_self]

/-- On a context that already carries `backend` and `request`, no entry
keyed by the provider name, and `strategy` (unless the provider name is
itself `strategy`), the `run_pipeline` preamble is the identity: this is
what makes resuming with an intermediate context transparent. -/
theorem applyDefaults_of_complete (strat : Strategy) (self : SelfState)
    (C : Dict) (hb : (dlookup C "backend").isSome)
    (hr : (dlookup C "request").isSome)
    (hn : dlookup C self.name = Option.none)
    (hs : (dlookup C "strategy").isSome ∨ self.name = "strategy") :
    BaseAuth.applyDefaults strat self C = C := by
  simp only [BaseAuth.applyDefaults]
  rcases hs with hs | hs
  · rw [dsetdefault_of_mem _ _ _ hs,
      show dpop C self.name = (Option.none, C) from dpop_of_not_mem _ _ hn,
      dsetdefault_of_mem _ _ _ hb, dsetdefault_of_mem _ _ _ hr]
  · rw [hs] at hn ⊢
    rw [show dsetdefault C "strategy" self.strategy =
        C ++ [("strategy", self.strategy)] by simp [dsetdefault, hn],
      dpop_append_last _ _ _ hn,
      dsetdefault_of_mem _ _ _ hb, dsetdefault_of_mem _ _ _ hr]

/-! Duplicate-free keys (every real Python dict satisfies this). -/

theorem dlookup_none_iff (d : Dict) (k : String) :
    dlookup d k = Option.none ↔ k ∉ d.map Prod.fst := by
  induction d with
  | nil => simp [dlookup]
  | cons hd tl ih =>
    obtain ⟨k', w⟩ := hd
    by_cases hk : k' = k
    · subst hk
      simp [dlookup]
    · have hk2 : ¬k = k' := fun hh => hk hh.symm
      simp [dlookup, hk, hk2, ih]

theorem dsetdefault_keys_nodup (d : Dict) (k : String) (v : Val)
    (h : (d.map Prod.fst).Nodup) :
    ((dsetdefault d k v).map Prod.fst).Nodup := by
  unfold dsetdefault
  cases hl : dlookup d k with
  | some w => exact h
  | none =>
    rw [dlookup_none_iff] at hl
    simp [List.nodup_append, h, hl]

theorem dlookup_dpop_self_nodup (d : Dict) (k : String)
    (h : (d.map Prod.fst).Nodup) :
    dlookup (dpop d k).2 k = Option.none := by
  induction d with
  | nil => simp [dpop, dlookup]
  | cons hd tl ih =>
    obtain ⟨k', w⟩ := hd
    simp only [List.map_cons, List.nodup_cons] at h
    by_cases hk : k' = k
    · subst hk
      simp only [dpop, if_pos rfl]
      rw [dlookup_none_iff]
      exact h.1
    · simp [dpop, dlookup, hk, ih h.2]

theorem dpop_fst (d : Dict) (k : String) : (dpop d k).1 = dlookup d k := by
  induction d with
  | nil => rfl
  | cons hd tl ih =>
    obtain ⟨k', w⟩ := hd
    by_cases hk : k' = k <;> simp [dpop, dlookup, hk, ih]

/-! Claim theorems. -/

/-- C3: `setting('X')` for a backend with name `foo` returns the value
stored under the provider-namespaced key `FOO_X` when the configuration
holds one, else the value stored under bare `X`, else the caller-supplied
default; a stored falsy value (empty string, `0`) does not trigger fallback
— only the absence sentinel (`Option.none` here) does.  `setting_name` is
modelled from the spec because `social.utils` is not among the sources. -/
theorem c3_setting_lookup (strat : Strategy) (self : SelfState)
    (X : String) (default v w : Val) :
    (strat.settings (setting_name self.name X) = some v →
      BaseAuth.setting strat self X default = v) ∧
    (strat.settings (setting_name self.name X) = Option.none →
      strat.settings X = some w →
      BaseAuth.setting strat self X default = w) ∧
    (strat.settings (setting_name self.name X) = Option.none →
      strat.settings X = Option.none →
      BaseAuth.setting strat self X default = default) := by
  refine ⟨fun h1 => ?_, fun h1 h2 => ?_, fun h1 h2 => ?_⟩
  · simp [BaseAuth.setting, settingLookup, h1]
  · simp [BaseAuth.setting, settingLookup, h1, h2]
  · simp [BaseAuth.setting, settingLookup, h1, h2]

/-- Witness for C3: backend name `foo`, namespaced key `FOO_X` stores the
falsy `""` (returned, no fallback), bare `Y` stores the falsy `0`
(returned after the namespaced miss), and `Z` is absent everywhere (the
default is returned). -/
theorem c3_setting_lookup_witness :
    BaseAuth.setting c3Strat fooSelf "X" (Val.vstr "DEF") = Val.vstr "" ∧
    BaseAuth.setting c3Strat fooSelf "Y" (Val.vstr "DEF") = Val.vint 0 ∧
    BaseAuth.setting c3Strat fooSelf "Z" (Val.vstr "DEF") = Val.vstr "DEF" :=
  ⟨(c3_setting_lookup c3Strat fooSelf "X" (Val.vstr "DEF") (Val.vstr "")
      (Val.vstr "")).1 rfl,
   (c3_setting_lookup c3Strat fooSelf "Y" (Val.vstr "DEF") Val.vnone
      (Val.vint 0)).2.1 rfl rfl,
   (c3_setting_lookup c3Strat fooSelf "Z" (Val.vstr "DEF") Val.vnone
      Val.vnone).2.2 rfl rfl⟩

/-- C4: `strategy.clean_partial_pipeline()` is invoked on a `run_pipeline`
run exactly when all steps complete without short-circuiting (every
configured step ran and the result is the context mapping); on every run in
which some step short-circuits it is not invoked. -/
theorem c4_clean_iff_complete (resolve : Resolver) (strat : Strategy)
    (self : SelfState) (pipeline : List String) (pidx : Int)
    (args : List Val) (kwargs : Dict) :
    (BaseAuth.run_pipeline resolve strat self pipeline pidx args
        kwargs).cleaned = true ↔
      ((BaseAuth.run_pipeline resolve strat self pipeline pidx args
          kwargs).stepsRun = pipeline.length ∧
        isDict (BaseAuth.run_pipeline resolve strat self pipeline pidx args
          kwargs).value = true) := by
  simp only [BaseAuth.run_pipeline]
  rcases hr : BaseAuth.runLoop resolve args pipeline pidx
    (BaseAuth.applyDefaults strat self kwargs) with ⟨res, c⟩
  cases res with
  | inl v =>
    have hv := runLoop_inl _ _ _ _ _ _ _ hr
    simp [hv.1]
  | inr d =>
    have hc := runLoop_inr_count _ _ _ _ _ _ _ hr
    simp [hc, isDict]

/-- C6: when every step of a non-empty pipeline returns an empty (falsy)
result, the executor's final context is exactly the initial context after
the strategy/backend/request defaulting with only `pipeline_index` changed,
advanced to the last step's absolute index, and the executor's result is
that context (all steps ran, the partial state was cleared). -/
theorem c6_empty_steps (resolve : Resolver) (strat : Strategy)
    (self : SelfState) (names : List String) (pidx : Int) (args : List Val)
    (kwargs : Dict) (hne : names ≠ [])
    (hf : ∀ n ∈ names, ∀ ctx, truthy (resolve n args ctx) = false) :
    BaseAuth.run_pipeline resolve strat self names pidx args kwargs =
      ⟨Val.vdict (dset (BaseAuth.applyDefaults strat self kwargs)
          "pipeline_index" (Val.vint (pidx + names.length - 1))), true,
        names.length⟩ := by
  simp only [BaseAuth.run_pipeline]
  rw [runLoop_all_falsy resolve args names pidx _ hne hf]

/-- Witness for C6: two `None`-returning steps leave the defaulted initial
context untouched except for `pipeline_index = 1`. -/
theorem c6_empty_steps_witness :
    BaseAuth.run_pipeline demoResolve demoStrat xSelf ["empty", "empty"] 0
        [] [] =
      ⟨Val.vdict [("strategy", Val.vnone), ("backend", Val.vbackend "x"),
        ("request", Val.vobj "request"), ("pipeline_index", Val.vint 1)],
        true, 2⟩ := by
  rw [c6_empty_steps demoResolve demoStrat xSelf ["empty", "empty"] 0 [] []
    (by simp) (fun n hn ctx => by
      simp only [List.mem_cons, List.not_mem_nil, or_false, or_self] at hn
      subst hn
      rfl)]
  rfl

/-- C7: `authenticate` returns the neutral non-match `None` — no exception,
no pipeline step runs — whenever the keyword arguments lack a `backend`
entry, or the supplied backend's name differs from this backend's name, or
the keyword arguments lack `strategy` or `response`. -/
theorem c7_not_applicable (resolve : Resolver) (strat : Strategy)
    (self : SelfState) (args : List Val) (kwargs : Dict)
    (h : dlookup kwargs "backend" = Option.none
      ∨ (∃ n, dlookup kwargs "backend" = some (Val.vbackend n) ∧
          n ≠ self.name)
      ∨ ((∃ n, dlookup kwargs "backend" = some (Val.vbackend n)) ∧
          ((dlookup kwargs "strategy").isNone ∨
            (dlookup kwargs "response").isNone))) :
    BaseAuth.authenticate resolve strat self args kwargs =
      some ⟨Val.vnone, false, 0⟩ := by
  unfold BaseAuth.authenticate
  rcases h with h | ⟨n, hb, hn⟩ | ⟨⟨n, hb⟩, hmiss⟩
  · rw [h]
  · rw [hb]
    simp [pyName, hn]
  · rw [hb]
    simp only [pyName]
    by_cases heq : n = self.name
    · subst heq
      rcases hmiss with hm | hm
      · simp [hm]
      · by_cases hstrat : (dlookup kwargs "strategy").isNone
        · simp [hstrat]
        · simp [hstrat, hm]
    · simp [heq]

/-- Witness for C7: with empty keyword arguments (no `backend` entry) the
call returns `None`, raises nothing and runs zero steps. -/
theorem c7_not_applicable_witness :
    BaseAuth.authenticate demoResolve demoStrat xSelf [] [] =
      some ⟨Val.vnone, false, 0⟩ :=
  c7_not_applicable demoResolve demoStrat xSelf [] [] (Or.inl rfl)

/-- Counterexample to C2 as stated: in the concrete run below the step at
position 0 (`empty`) returns `None`, a non-mapping value, yet the pipeline
does NOT stop there: the later step also runs (`stepsRun = 2`) and the
overall result is the final context mapping, not `None`.  The line
`result = func(*args, **out) or {}` coerces every falsy result — `None`
included — to `{}`, so only truthy non-mapping values short-circuit. -/
theorem c2_counterexample :
    demoResolve "empty" []
        (dset (BaseAuth.applyDefaults demoStrat xSelf []) "pipeline_index"
          (Val.vint 0)) = Val.vnone ∧
    isDict Val.vnone = false ∧
    BaseAuth.run_pipeline demoResolve demoStrat xSelf ["empty", "one"] 0
        [] [] =
      ⟨Val.vdict [("strategy", Val.vnone), ("backend", Val.vbackend "x"),
        ("request", Val.vobj "request"), ("pipeline_index", Val.vint 1),
        ("k1", Val.vint 1)], true, 2⟩ :=
  ⟨rfl, rfl, rfl⟩

/-- C2 (amended): if the step at position `k` returns a TRUTHY non-mapping
value, then no step after `k` is invoked and the executor's overall result
equals that value exactly (a falsy non-mapping result such as `None` is
treated as an empty contribution instead, see `c2_counterexample`).  The
prefix `l1` is the first `k` steps, `s` the step at position `k`. -/
theorem c2_short_circuit (resolve : Resolver) (strat : Strategy)
    (self : SelfState) (l1 l2 : List String) (s : String) (pidx : Int)
    (args : List Val) (kwargs : Dict) (C : Dict) (v : Val)
    (h1 : BaseAuth.runLoop resolve args l1 pidx
      (BaseAuth.applyDefaults strat self kwargs) = (Sum.inr C, l1.length))
    (h2 : resolve s args
      (dset C "pipeline_index" (Val.vint (pidx + l1.length))) = v)
    (h3 : truthy v = true) (h4 : isDict v = false) :
    BaseAuth.run_pipeline resolve strat self (l1 ++ s :: l2) pidx args
      kwargs = ⟨v, false, l1.length + 1⟩ := by
  simp only [BaseAuth.run_pipeline]
  rw [runLoop_append, h1]
  simp only [BaseAuth.runLoop]
  rw [h2, if_pos h3]
  cases v
  case vdict d => simp [isDict] at h4
  all_goals dsimp only
  all_goals rw [Nat.add_comm]

/-- Witness for C2: a two-step prefix-free run where the step at position 1
(`halt`) returns the truthy string `"redirect"`: the run stops there, the
third step never runs, the string is the result and no cleanup happens. -/
theorem c2_short_circuit_witness :
    BaseAuth.run_pipeline demoResolve demoStrat xSelf
        (["empty"] ++ "halt" :: ["empty"]) 0 [] [] =
      ⟨Val.vstr "redirect", false, 2⟩ :=
  c2_short_circuit demoResolve demoStrat xSelf ["empty"] ["empty"] "halt" 0
    [] []
    [("strategy", Val.vnone), ("backend", Val.vbackend "x"),
      ("request", Val.vobj "request"), ("pipeline_index", Val.vint 0)]
    (Val.vstr "redirect") rfl rfl rfl rfl

/-- C5: `auth_allowed` returns `True` for every input when both configured
allow-lists are empty (whatever the e-mail); when a non-empty string
e-mail with a domain (the part after its first `@`) is present and at
least one allow-list is non-empty, it returns `True` exactly when the
e-mail appears (Python `in`, i.e. `beqVal`) in the e-mail allow-list or
its domain appears in the domain allow-list. -/
theorem c5_auth_allowed (strat : Strategy) (self : SelfState)
    (response details : Dict) (es ds : List Val)
    (hE : BaseAuth.setting strat self "WHITELISTED_EMAILS" (Val.vlist []) =
      Val.vlist es)
    (hD : BaseAuth.setting strat self "WHITELISTED_DOMAINS" (Val.vlist []) =
      Val.vlist ds) :
    (es = [] → ds = [] →
      BaseAuth.auth_allowed strat self response details =
        some (Val.vbool true)) ∧
    (∀ s l dom, dgetD details "email" Val.vnone = Val.vstr s → s ≠ "" →
      pysplit1 s '@' = [l, dom] → (es ≠ [] ∨ ds ≠ []) →
      BaseAuth.auth_allowed strat self response details =
        some (Val.vbool (es.any (beqVal (Val.vstr s) ·) ||
          ds.any (beqVal (Val.vstr dom) ·)))) := by
  constructor
  · intro h1 h2
    subst h1
    subst h2
    simp [BaseAuth.auth_allowed, hE, hD, truthy]
  · intro s l dom hm hs hsp hlists
    have hguard : (truthy (Val.vstr s) &&
        (truthy (Val.vlist es) || truthy (Val.vlist ds))) = true := by
      rcases hlists with h | h <;>
        simp [truthy, hs, List.isEmpty_iff, h]
    simp only [BaseAuth.auth_allowed, hE, hD, hm]
    rw [if_pos hguard]
    rw [hsp]
    simp only [List.getElem?_cons_succ, List.getElem?_cons_zero]
    cases he : es.any (beqVal (Val.vstr s) ·) <;>
      simp [pyIn, he]

/-- Witness for C5: no allow-lists configured allows `b@x.com`; the e-mail
allow-list `["a@x.com"]` rejects `b@x.com`; the domain allow-list
`["x.com"]` allows `b@x.com`. -/
theorem c5_auth_allowed_witness :
    BaseAuth.auth_allowed demoStrat fooSelf []
        [("email", Val.vstr "b@x.com")] = some (Val.vbool true) ∧
    BaseAuth.auth_allowed emailListStrat fooSelf []
        [("email", Val.vstr "b@x.com")] = some (Val.vbool false) ∧
    BaseAuth.auth_allowed domainListStrat fooSelf []
        [("email", Val.vstr "b@x.com")] = some (Val.vbool true) := by
  refine ⟨(c5_auth_allowed demoStrat fooSelf []
      [("email", Val.vstr "b@x.com")] [] [] rfl rfl).1 rfl rfl, ?_, ?_⟩
  · rw [(c5_auth_allowed emailListStrat fooSelf []
        [("email", Val.vstr "b@x.com")] [Val.vstr "a@x.com"] [] rfl rfl).2
      "b@x.com" "b" "x.com" rfl (by simp) rfl (Or.inl (by simp))]
    rfl
  · rw [(c5_auth_allowed domainListStrat fooSelf []
        [("email", Val.vstr "b@x.com")] [] [Val.vstr "x.com"] rfl rfl).2
      "b@x.com" "b" "x.com" rfl (by simp) rfl (Or.inr (by simp))]
    rfl

/-- C10: `auth_allowed` returns a value on every input satisfying the
precondition that, whenever an allow-list is non-empty and a truthy e-mail
is present, the e-mail is a string containing at least one `@`; without
the precondition the indexing `email.split('@', 1)[1]` is out of range:
on the concrete input with a whitelist configured and the `@`-less e-mail
`"noat"`, `auth_allowed` raises (`Option.none`) instead of returning. -/
theorem c10_auth_allowed_totality (strat : Strategy) (self : SelfState)
    (response details : Dict) (es ds : List Val)
    (hE : BaseAuth.setting strat self "WHITELISTED_EMAILS" (Val.vlist []) =
      Val.vlist es)
    (hD : BaseAuth.setting strat self "WHITELISTED_DOMAINS" (Val.vlist []) =
      Val.vlist ds)
    (hpre : truthy (dgetD details "email" Val.vnone) = true →
      (es ≠ [] ∨ ds ≠ []) →
      ∃ s l dom, dgetD details "email" Val.vnone = Val.vstr s ∧
        pysplit1 s '@' = [l, dom]) :
    (∃ b, BaseAuth.auth_allowed strat self response details = some b) ∧
    BaseAuth.auth_allowed emailListStrat fooSelf []
      [("email", Val.vstr "noat")] = Option.none := by
  refine ⟨?_, rfl⟩
  simp only [BaseAuth.auth_allowed, hE, hD]
  by_cases hguard : (truthy (dgetD details "email" Val.vnone) &&
      (truthy (Val.vlist es) || truthy (Val.vlist ds))) = true
  · have hml : es ≠ [] ∨ ds ≠ [] := by
      rcases Bool.and_eq_true_iff.1 hguard with ⟨-, hor⟩
      rcases Bool.or_eq_true_iff.1 hor with h | h
      · exact Or.inl (by simpa [truthy, List.isEmpty_iff] using h)
      · exact Or.inr (by simpa [truthy, List.isEmpty_iff] using h)
    obtain ⟨s, l, dom, hm, hsp⟩ :=
      hpre (Bool.and_eq_true_iff.1 hguard).1 hml
    rw [if_pos hguard, hm]
    dsimp only
    rw [hsp]
    simp only [List.getElem?_cons_succ, List.getElem?_cons_zero]
    cases he : es.any (beqVal (Val.vstr s) ·) <;>
      simp [pyIn, he]
  · rw [if_neg hguard]
    exact ⟨Val.vbool true, rfl⟩

/-- Witness for C10: a string e-mail containing `@` with a configured
whitelist satisfies the precondition and gets a value; the `@`-less
`"noat"` crashes. -/
theorem c10_auth_allowed_totality_witness :
    (∃ b, BaseAuth.auth_allowed emailListStrat fooSelf []
      [("email", Val.vstr "a@x.com")] = some b) ∧
    BaseAuth.auth_allowed emailListStrat fooSelf []
      [("email", Val.vstr "noat")] = Option.none :=
  c10_auth_allowed_totality emailListStrat fooSelf []
    [("email", Val.vstr "a@x.com")] [Val.vstr "a@x.com"] [] rfl rfl
    (fun _ _ => ⟨"a@x.com", "a", "x.com", rfl, rfl⟩)

/-- Counterexample to C9 as stated: for a backend whose provider name is
`request`, the preamble pops that key but then `setdefault('request', ...)`
re-adds it, so the step at index 0 DOES receive a context key equal to the
provider name: the context handed to it carries
`request ↦ "AMBIENT"`, and the `probe` step — which returns exactly the
`request` entry it received — short-circuits with that value. -/
theorem c9_counterexample :
    dlookup (dset (BaseAuth.applyDefaults probeStrat reqSelf [])
        "pipeline_index" (Val.vint 0)) "request" =
      some (Val.vstr "AMBIENT") ∧
    BaseAuth.run_pipeline demoResolve probeStrat reqSelf ["probe"] 0 [] [] =
      ⟨Val.vstr "AMBIENT", false, 1⟩ :=
  ⟨rfl, rfl⟩

/-- C9 (amended): on every `run_pipeline` call with duplicate-free keyword
keys, the entry keyed by the backend's name is unconditionally popped by
the preamble — the pop is evaluated as the `setdefault` argument, so it
happens even when a `backend` entry is already present — and a truthy
popped value becomes the `backend` default; consequently the defaulted
context handed to the first step carries no key equal to the provider
name, PROVIDED that name is none of `backend`, `request`,
`pipeline_index` (those keys are re-added by the executor itself; and a
later step may still receive such a key if an earlier step's contribution
introduces it, see `c8_counterexample`). -/
theorem c9_name_key_pop (strat : Strategy) (self : SelfState)
    (kwargs : Dict) (p : Val) (i : Int)
    (hnd : (kwargs.map Prod.fst).Nodup) :
    (self.name ≠ "backend" → self.name ≠ "request" →
      dlookup (BaseAuth.applyDefaults strat self kwargs) self.name =
        Option.none) ∧
    (dlookup kwargs "backend" = Option.none →
      dlookup kwargs self.name = some p → truthy p = true →
      dlookup (BaseAuth.applyDefaults strat self kwargs) "backend" =
        some p) ∧
    (self.name ≠ "backend" → self.name ≠ "request" →
      self.name ≠ "pipeline_index" →
      dlookup (dset (BaseAuth.applyDefaults strat self kwargs)
        "pipeline_index" (Val.vint i)) self.name = Option.none) := by
  have key1 : self.name ≠ "backend" → self.name ≠ "request" →
      dlookup (BaseAuth.applyDefaults strat self kwargs) self.name =
        Option.none := by
    intro hb hr
    simp only [BaseAuth.applyDefaults]
    rw [dlookup_dsetdefault_ne _ _ _ _ (Ne.symm hr),
      dlookup_dsetdefault_ne _ _ _ _ (Ne.symm hb)]
    exact dlookup_dpop_self_nodup _ _ (dsetdefault_keys_nodup _ _ _ hnd)
  refine ⟨key1, ?_, ?_⟩
  · intro hb hp ht
    have hnb : self.name ≠ "backend" := by
      intro hh
      rw [hh, hb] at hp
      exact Option.noConfusion hp
    simp only [BaseAuth.applyDefaults]
    have hout1 : dlookup (dsetdefault kwargs "strategy" self.strategy)
        self.name = some p := by
      by_cases hsn : self.name = "strategy"
      · rw [hsn] at hp ⊢
        rw [dsetdefault_of_mem _ _ _ (by simp [hp])]
        exact hp
      · rw [dlookup_dsetdefault_ne _ _ _ _ (Ne.symm hsn)]
        exact hp
    have hpop1 : (dpop (dsetdefault kwargs "strategy" self.strategy)
        self.name).1 = some p := by
      rw [dpop_fst]
      exact hout1
    have hpop2 : dlookup (dpop (dsetdefault kwargs "strategy"
        self.strategy) self.name).2 "backend" = Option.none := by
      rw [dlookup_dpop_ne _ _ _ hnb,
        dlookup_dsetdefault_ne _ _ _ _ (by simp)]
      exact hb
    rw [dlookup_dsetdefault_ne _ _ _ _ (by simp)]
    rw [hpop1]
    simp only [Option.getD_some, ht, if_pos]
    rw [dlookup_dsetdefault_self, hpop2]
    rfl
  · intro hb hr hpi
    rw [dlookup_dset, if_neg (Ne.symm hpi)]
    exact key1 hb hr

/-- Witness for C9: backend named `x` with `kwargs = {'x': 7, ...}` and no
`backend` entry: the `x` entry is gone from the defaulted context, the
truthy popped `7` became the `backend` value, and the context handed to
the first step has no `x` key either. -/
theorem c9_name_key_pop_witness :
    dlookup (BaseAuth.applyDefaults demoStrat xSelf [("x", Val.vint 7)])
      "x" = Option.none ∧
    dlookup (BaseAuth.applyDefaults demoStrat xSelf [("x", Val.vint 7)])
      "backend" = some (Val.vint 7) ∧
    dlookup (dset (BaseAuth.applyDefaults demoStrat xSelf
      [("x", Val.vint 7)]) "pipeline_index" (Val.vint 0)) "x" =
      Option.none := by
  have h := c9_name_key_pop demoStrat xSelf [("x", Val.vint 7)]
    (Val.vint 7) 0 (by simp)
  exact ⟨h.1 (by decide) (by decide), h.2.1 rfl rfl rfl,
    h.2.2 (by decide) (by decide) (by decide)⟩

/-- Counterexample to C8 as stated: backend named `k`, pipeline
`["addk", "noop-like empty"]`, all steps pure mappings, split after step
0.  The first conjunct checks the phase-1 run completes with context
`c8Seed` (which contains the step-contributed key `k`); the full run's
final context keeps `k ↦ 1`, but the resumed run pops the `k` entry of
the seed in its preamble (the popped truthy `1` is then discarded because
`backend` is already present), so its final context lacks `k`: the two
final contexts differ. -/
theorem c8_counterexample :
    BaseAuth.run_pipeline demoResolve demoStrat kSelf ["addk"] 0 [] [] =
      ⟨Val.vdict c8Seed, true, 1⟩ ∧
    dlookup (asDictVal (BaseAuth.run_pipeline demoResolve demoStrat kSelf
      (["addk"] ++ ["empty"]) 0 [] []).value) "k" = some (Val.vint 1) ∧
    dlookup (asDictVal (BaseAuth.run_pipeline demoResolve demoStrat kSelf
      ["empty"] 1 [] c8Seed).value) "k" = Option.none :=
  ⟨rfl, rfl, rfl⟩

/-- C8 (amended): for every pipeline of pure steps and every split point,
if the prefix run completes without short-circuiting and its resulting
context carries no key equal to the backend's name attribute — no step
contributed one — then running the full pipeline from index 0 agrees, in
result value and in cleanup behaviour, with running the prefix first and
then the suffix with the prefix's length as start index, seeded with the
prefix run's resulting context; the step counts add up.  When the seed
does carry a key equal to the backend name, the resumed run's preamble
pops it and the results can differ, see `c8_counterexample`. -/
theorem c8_resumption (resolve : Resolver) (strat : Strategy)
    (self : SelfState) (l1 l2 : List String) (args : List Val)
    (kwargs : Dict) (C : Dict)
    (h1 : BaseAuth.run_pipeline resolve strat self l1 0 args kwargs =
      ⟨Val.vdict C, true, l1.length⟩)
    (h2 : dlookup C self.name = Option.none) :
    (BaseAuth.run_pipeline resolve strat self (l1 ++ l2) 0 args
        kwargs).value =
      (BaseAuth.run_pipeline resolve strat self l2 (l1.length : Int) args
        C).value ∧
    (BaseAuth.run_pipeline resolve strat self (l1 ++ l2) 0 args
        kwargs).cleaned =
      (BaseAuth.run_pipeline resolve strat self l2 (l1.length : Int) args
        C).cleaned ∧
    (BaseAuth.run_pipeline resolve strat self (l1 ++ l2) 0 args
        kwargs).stepsRun =
      (BaseAuth.run_pipeline resolve strat self l2 (l1.length : Int) args
        C).stepsRun + l1.length := by
  have hr : BaseAuth.runLoop resolve args l1 0
      (BaseAuth.applyDefaults strat self kwargs) =
      (Sum.inr C, l1.length) := by
    simp only [BaseAuth.run_pipeline] at h1
    rcases hq : BaseAuth.runLoop resolve args l1 0
      (BaseAuth.applyDefaults strat self kwargs) with ⟨res, c⟩
    rw [hq] at h1
    cases res with
    | inl v => simp at h1
    | inr d =>
      simp only [RunResult.mk.injEq] at h1
      obtain ⟨hv, -, hc⟩ := h1
      injection hv with hv
      rw [hv, hc]
  have hkb : (dlookup C "backend").isSome :=
    runLoop_inr_isSome _ _ _ _ _ _ _ _
      (applyDefaults_backend_isSome strat self kwargs) hr
  have hkr : (dlookup C "request").isSome :=
    runLoop_inr_isSome _ _ _ _ _ _ _ _
      (applyDefaults_request_isSome strat self kwargs) hr
  have hks : (dlookup C "strategy").isSome ∨ self.name = "strategy" := by
    by_cases hsn : self.name = "strategy"
    · exact Or.inr hsn
    · exact Or.inl (runLoop_inr_isSome _ _ _ _ _ _ _ _
        (applyDefaults_strategy_isSome strat self kwargs hsn) hr)
  have hAD := applyDefaults_of_complete strat self C hkb hkr h2 hks
  simp only [BaseAuth.run_pipeline]
  rw [runLoop_append, hr, hAD]
  dsimp only
  rw [show (0 : Int) + (l1.length : Int) = (l1.length : Int) by ring]
  rcases hq : BaseAuth.runLoop resolve args l2 (l1.length : Int) C
    with ⟨q1, q2⟩
  cases q1 <;> simp

/-- Witness for C8: backend named `x`, prefix `["one"]`, suffix
`["empty"]`: the full run and the seeded resumed run agree. -/
theorem c8_resumption_witness :
    (BaseAuth.run_pipeline demoResolve demoStrat xSelf
        (["one"] ++ ["empty"]) 0 [] []).value =
      (BaseAuth.run_pipeline demoResolve demoStrat xSelf ["empty"]
        ((["one"] : List String).length : Int) [] c8WitSeed).value ∧
    (BaseAuth.run_pipeline demoResolve demoStrat xSelf
        (["one"] ++ ["empty"]) 0 [] []).cleaned =
      (BaseAuth.run_pipeline demoResolve demoStrat xSelf ["empty"]
        ((["one"] : List String).length : Int) [] c8WitSeed).cleaned ∧
    (BaseAuth.run_pipeline demoResolve demoStrat xSelf
        (["one"] ++ ["empty"]) 0 [] []).stepsRun =
      (BaseAuth.run_pipeline demoResolve demoStrat xSelf ["empty"]
        ((["one"] : List String).length : Int) [] c8WitSeed).stepsRun +
        (["one"] : List String).length :=
  c8_resumption demoResolve demoStrat xSelf ["one"] ["empty"] [] []
    c8WitSeed rfl rfl

/-- Counterexample to C1 as stated: a validated `authenticate` run with an
empty configured pipeline.  The executor's result is the mapping
`c1FinalCtx`, which lacks a `user` entry, so per the claim `authenticate`
should return that mapping unchanged — but it returns `user`, i.e. `None`
(`out.get('user')` of a user-less dict): the returned value is not a dict
while the raw executor result is one. -/
theorem c1_counterexample :
    BaseAuth.authenticate demoResolve demoStrat xSelf [] c1Kwargs =
      some ⟨Val.vnone, true, 0⟩ ∧
    (authRun demoResolve demoStrat xSelf c1Kwargs).value =
      Val.vdict c1FinalCtx ∧
    dlookup c1FinalCtx "user" = Option.none ∧
    isDict Val.vnone = false ∧
    isDict (Val.vdict c1FinalCtx) = true :=
  ⟨rfl, rfl, rfl, rfl, rfl⟩

/-- C1 (amended): on a validated `authenticate` run (matching backend
object, strategy and response supplied; here with no positional arguments
and no resumption index), if the executor's result is a mapping whose
`user` entry is a (truthy) user object, that user is returned annotated
with the mapping's `social` and `is_new` entries; if the result is not a
mapping it is returned unchanged; but if the result is a mapping whose
`user` entry is absent or falsy, `authenticate` returns that entry
(`None` when absent) — NOT the raw mapping, see `c1_counterexample`. -/
theorem c1_authenticate_unwrap (resolve : Resolver) (strat : Strategy)
    (self : SelfState) (kwargs : Dict)
    (hb : dlookup kwargs "backend" = some (Val.vbackend self.name))
    (hs : (dlookup kwargs "strategy").isSome)
    (hr : (dlookup kwargs "response").isSome)
    (hpi : dlookup kwargs "pipeline_index" = Option.none) :
    (∀ d uid su inew,
      (authRun resolve strat self kwargs).value = Val.vdict d →
      dgetD d "user" Val.vnone = Val.vuser uid su inew →
      BaseAuth.authenticate resolve strat self [] kwargs =
        some ⟨Val.vuser uid (dgetD d "social" Val.vnone)
            (dgetD d "is_new" Val.vnone),
          (authRun resolve strat self kwargs).cleaned,
          (authRun resolve strat self kwargs).stepsRun⟩) ∧
    (isDict (authRun resolve strat self kwargs).value = false →
      BaseAuth.authenticate resolve strat self [] kwargs =
        some ⟨(authRun resolve strat self kwargs).value,
          (authRun resolve strat self kwargs).cleaned,
          (authRun resolve strat self kwargs).stepsRun⟩) ∧
    (∀ d, (authRun resolve strat self kwargs).value = Val.vdict d →
      truthy (dgetD d "user" Val.vnone) = false →
      BaseAuth.authenticate resolve strat self [] kwargs =
        some ⟨dgetD d "user" Val.vnone,
          (authRun resolve strat self kwargs).cleaned,
          (authRun resolve strat self kwargs).stepsRun⟩) := by
  obtain ⟨sv, hsv⟩ := Option.isSome_iff_exists.mp hs
  obtain ⟨rv, hrv⟩ := Option.isSome_iff_exists.mp hr
  have hpi2 : dlookup (dsetdefault kwargs "is_new" (Val.vbool false))
      "pipeline_index" = Option.none := by
    rw [dlookup_dsetdefault_ne _ _ _ _ (by decide)]
    exact hpi
  have hauth : BaseAuth.authenticate resolve strat self [] kwargs =
      BaseAuth.pipeline resolve strat (BaseAuth.effSelf strat self kwargs)
        strat.pipelineNames 0 []
        (dsetdefault kwargs "is_new" (Val.vbool false)) := by
    unfold BaseAuth.authenticate
    rw [hb]
    simp only [pyName]
    rw [if_neg (show ¬self.name ≠ self.name by simp)]
    rw [hsv, hrv]
    simp only [Option.isNone_some, Bool.false_eq_true, if_false]
    rw [hpi2]
    unfold BaseAuth.pipelineBind
    rw [hpi2]
  refine ⟨fun d uid su inew hv hu => ?_, fun hv => ?_,
    fun d hv hu => ?_⟩
  · rw [hauth]
    simp only [BaseAuth.pipeline, authRun] at hv ⊢
    rw [hv]
    dsimp only
    rw [hu]
    simp [truthy]
  · rw [hauth]
    simp only [BaseAuth.pipeline, authRun] at hv ⊢
    cases hval : (BaseAuth.run_pipeline resolve strat
        (BaseAuth.effSelf strat self kwargs) strat.pipelineNames 0 []
        (dsetdefault kwargs "is_new" (Val.vbool false))).value
    case vdict dd =>
      rw [hval] at hv
      simp [isDict] at hv
    all_goals dsimp only
  · rw [hauth]
    simp only [BaseAuth.pipeline, authRun] at hv ⊢
    rw [hv]
    dsimp only
    rw [if_neg (by rw [hu]; simp)]

/-- Witness for C1: three validated runs — a `mkuser` pipeline returns the
annotated user; a `halt` pipeline returns the redirect string unchanged; a
`one` pipeline (mapping result without `user`) returns `None`. -/
theorem c1_authenticate_unwrap_witness :
    BaseAuth.authenticate demoResolve (stratWith ["mkuser"]) xSelf []
        c1Kwargs =
      some ⟨Val.vuser 7 (Val.vobj "social") (Val.vbool true), true, 1⟩ ∧
    BaseAuth.authenticate demoResolve (stratWith ["halt"]) xSelf []
        c1Kwargs = some ⟨Val.vstr "redirect", false, 1⟩ ∧
    BaseAuth.authenticate demoResolve (stratWith ["one"]) xSelf []
        c1Kwargs = some ⟨Val.vnone, true, 1⟩ := by
  refine ⟨?_, ?_, ?_⟩
  · rw [(c1_authenticate_unwrap demoResolve (stratWith ["mkuser"]) xSelf
      c1Kwargs rfl rfl rfl rfl).1
      (asDictVal (authRun demoResolve (stratWith ["mkuser"]) xSelf
        c1Kwargs).value) 7 Val.vnone Val.vnone rfl rfl]
    rfl
  · rw [(c1_authenticate_unwrap demoResolve (stratWith ["halt"]) xSelf
      c1Kwargs rfl rfl rfl rfl).2.1 rfl]
    rfl
  · rw [(c1_authenticate_unwrap demoResolve (stratWith ["one"]) xSelf
      c1Kwargs rfl rfl rfl rfl).2.2
      (asDictVal (authRun demoResolve (stratWith ["one"]) xSelf
        c1Kwargs).value) rfl rfl]
    rfl

end SocialAuth
